import Mathlib

/-!
Verification of the SmartHire interview-analysis pipeline.

Shallow embedding of the analysis-relevant slice of the repository:
the per-response worker, the completion detector and the aggregation
task of interviews/tasks.py, the Interview and VideoResponse rows of
interviews/models.py, and the status-writing endpoints of
interviews/views.py.  Machine floats of the source are modelled as
exact rationals; the Python builtin round to two decimal places is
modelled as round-to-nearest (the sources never hit a tie).
-/

/-! ### Tone dictionaries (tasks.py, analyze_tone) -/

/-- Tone name used by analyze_tone and process_video_response. -/
def nAnalytical : String := "Analytical"

/-- Tone name used by analyze_tone and process_video_response. -/
def nConfident : String := "Confident"

/-- Tone name used by analyze_tone and process_video_response. -/
def nTentative : String := "Tentative"

/-- Tone name used by analyze_tone and process_video_response. -/
def nJoy : String := "Joy"

/-- Tone name used by analyze_tone and process_video_response. -/
def nFear : String := "Fear"

/-- The five expected tone names, tasks.py line 176. -/
def toneNames : List String := [nAnalytical, nConfident, nTentative, nJoy, nFear]

/-- A Python dict from tone names to scores, as a lookup function. -/
def ToneDict : Type := String → Option ℚ

/-- Python dict assignment: tones[k] = v. -/
def dictSet (d : ToneDict) (k : String) (v : ℚ) : ToneDict :=
  fun n => if n = k then some v else d n

/-- The empty Python dict. -/
def emptyDict : ToneDict := fun _ => none

/-- Python round(x, 2): round to two decimal places. -/
def roundTo2 (x : ℚ) : ℚ := ((round (x * 100) : ℤ) : ℚ) / 100

/-- Environment of one analyze_tone call: configuration state and the
provider response.  exceptionRaised models any exception escaping the
provider call (tasks.py line 182); rawTones models the entries of
document_tone.tones; the mock fields model the random values of the
unconfigured branch (tasks.py lines 157-163). -/
structure WatsonEnv where
  configured : Bool
  exceptionRaised : Bool
  mockAnalytical : ℚ
  mockConfident : ℚ
  mockTentative : ℚ
  mockJoy : ℚ
  mockFear : ℚ
  rawTones : List (String × ℚ)

/-- The dict returned by the unconfigured (mock) branch of analyze_tone. -/
def mockToneDict (env : WatsonEnv) : ToneDict :=
  dictSet (dictSet (dictSet (dictSet (dictSet emptyDict
    nAnalytical env.mockAnalytical)
    nConfident env.mockConfident)
    nTentative env.mockTentative)
    nJoy env.mockJoy)
    nFear env.mockFear

/-- tasks.py lines 171-173 with a given start dict: for each provider
tone entry, tones[tone_name] = round(score * 100, 2). -/
def buildTonesFrom (d : ToneDict) (raw : List (String × ℚ)) : ToneDict :=
  raw.foldl (fun d p => dictSet d p.1 (roundTo2 (p.2 * 100))) d

/-- tasks.py lines 171-173 starting from the empty dict. -/
def buildTones (raw : List (String × ℚ)) : ToneDict :=
  buildTonesFrom emptyDict raw

/-- tasks.py lines 176-178: every expected tone name missing from the
dict is set to 0. -/
def fillMissing (d : ToneDict) (names : List String) : ToneDict :=
  names.foldl (fun d n => if (d n).isSome then d else dictSet d n 0) d

/-- The dict returned by the exception handler of analyze_tone,
tasks.py line 184. -/
def zeroTones : ToneDict :=
  fun n => if n ∈ toneNames then some 0 else none

/-- analyze_tone, tasks.py lines 149-184.  The text argument is passed
to the provider, whose reply is part of the environment. -/
def analyze_tone (env : WatsonEnv) (_text : String) : ToneDict :=
  if env.exceptionRaised then zeroTones
  else if env.configured then fillMissing (buildTones env.rawTones) toneNames
  else mockToneDict env

/-! ### VideoResponse rows and the per-response worker -/

/-- The analysis-relevant columns of the VideoResponse model,
models.py lines 251-290.  Nullable float columns are options; a blank
text column is the empty string. -/
structure VideoResponse where
  question_number : ℕ
  transcribed_text : String
  analytical_tone : Option ℚ
  confident_tone : Option ℚ
  tentative_tone : Option ℚ
  joy_tone : Option ℚ
  fear_tone : Option ℚ
  is_processed : Bool
  processing_error : String
deriving DecidableEq

/-- The successful body of process_video_response, tasks.py lines
44-57: store the transcript, and when it is non-empty store the five
tone scores looked up with default 0; then set is_processed.  The
processing_error column is not touched on this path. -/
def process_video_response_success (r : VideoResponse) (t : String) (d : ToneDict) :
    VideoResponse :=
  let r1 : VideoResponse := { r with transcribed_text := t }
  let r2 : VideoResponse :=
    if t ≠ "" then
      { r1 with
          analytical_tone := some ((d nAnalytical).getD 0),
          confident_tone := some ((d nConfident).getD 0),
          tentative_tone := some ((d nTentative).getD 0),
          joy_tone := some ((d nJoy).getD 0),
          fear_tone := some ((d nFear).getD 0) }
    else r1
  { r2 with is_processed := true }

/-- Result of one execution attempt of the worker body: either the
transcription and tone dict it obtained, or the exception message that
reached the handler of tasks.py line 73. -/
inductive AttemptOutcome where
  | ok (t : String) (d : ToneDict)
  | err (msg : String)

/-- The celery retry loop of process_video_response: on success apply
the body once; on an exception store the message in processing_error
(tasks.py line 75) and, while retries remain, retry with a countdown
of 60 seconds (tasks.py line 77), recording each scheduled delay.
Returns the final row, whether the task succeeded, and the backoffs. -/
def runAttempts : VideoResponse → List AttemptOutcome → ℕ → List ℕ →
    VideoResponse × Bool × List ℕ
  | r, [], _, delays => (r, false, delays)
  | r, AttemptOutcome.ok t d :: _, _, delays =>
      (process_video_response_success r t d, true, delays)
  | r, AttemptOutcome.err m :: rest, retriesLeft, delays =>
      let r1 : VideoResponse := { r with processing_error := m }
      match retriesLeft with
      | 0 => (r1, false, delays)
      | Nat.succ k => runAttempts r1 rest k (delays ++ [60])

/-- process_video_response as a task with max_retries = 3
(tasks.py line 29). -/
def process_video_response_task (r : VideoResponse) (outcomes : List AttemptOutcome) :
    VideoResponse × Bool × List ℕ :=
  runAttempts r outcomes 3 []

/-! ### Completion detector (tasks.py lines 56-65) -/

/-- One row of the VideoResponse table as seen by the completion
check: its id and its is_processed flag. -/
structure RespRow where
  rid : ℕ
  is_processed : Bool
deriving DecidableEq

/-- The table slice for one interview together with the number of
generate_analysis_charts.delay calls made so far. -/
structure TaskState where
  rows : List RespRow
  aggRuns : ℕ
deriving DecidableEq

/-- The save of tasks.py line 57: the finished response row gets
is_processed = True. -/
def markProcessed (rows : List RespRow) (r : ℕ) : List RespRow :=
  rows.map (fun row => if row.rid = r then { row with is_processed := true } else row)

/-- tasks.py line 61: no row with is_processed = False exists. -/
def allProcessed (rows : List RespRow) : Bool :=
  rows.all (fun row => row.is_processed)

/-- tasks.py lines 56-65 as one completion signal: mark the finishing
response processed, then query whether all responses of the interview
are processed and, if so, enqueue aggregation. -/
def worker_save_and_check (s : TaskState) (r : ℕ) : TaskState :=
  let rows1 := markProcessed s.rows r
  { rows := rows1,
    aggRuns := if allProcessed rows1 then s.aggRuns + 1 else s.aggRuns }

/-- Run a sequence of completion signals. -/
def runSignals (s : TaskState) (sched : List ℕ) : TaskState :=
  sched.foldl worker_save_and_check s

/-! ### Interview rows and the status-writing operations -/

/-- Interview.Status, models.py lines 149-155. -/
inductive Status where
  | pending
  | in_progress
  | completed
  | evaluated
  | accepted
  | rejected
deriving DecidableEq

/-- The analysis-relevant columns of the Interview model, models.py
lines 146-210. -/
structure Interview where
  status : Status
  tone_analysis_image : Option String
  confidence_score : Option ℚ
  analytical_score : Option ℚ
  joy_score : Option ℚ
  fear_score : Option ℚ
  hr_notes : String
  evaluated_by : Option ℕ
  evaluated_at : Option ℕ
  decision_email_sent : Bool
  decision_email_sent_at : Option ℕ
deriving DecidableEq

/-- Interview.mark_accepted, models.py lines 220-225. -/
def Interview.mark_accepted (iv : Interview) (hr now : ℕ) : Interview :=
  { iv with
      status := Status.accepted,
      evaluated_by := some hr,
      evaluated_at := some now }

/-- Interview.mark_rejected, models.py lines 227-232. -/
def Interview.mark_rejected (iv : Interview) (hr now : ℕ) : Interview :=
  { iv with
      status := Status.rejected,
      evaluated_by := some hr,
      evaluated_at := some now }

/-- np.mean of a list of rationals. -/
def meanQ (l : List ℚ) : ℚ := l.sum / (l.length : ℚ)

/-- Chart artifact path, tasks.py line 244. -/
def chartName (iid : ℕ) : String := "analysis/tone_" ++ toString iid ++ ".png"

/-- The state effect of generate_analysis_charts, tasks.py lines
188-256: return unchanged with False when the interview has no
responses; otherwise store the chart reference, the four mean scores
(each per-response null score contributing 0, tasks.py lines 210-214)
and status completed, in one save. -/
def generate_analysis_charts (iv : Interview) (resps : List VideoResponse) (iid : ℕ) :
    Interview × Bool :=
  if resps.isEmpty then (iv, false)
  else
    ({ iv with
        tone_analysis_image := some (chartName iid),
        analytical_score := some (meanQ (resps.map (fun r => (r.analytical_tone).getD 0))),
        confidence_score := some (meanQ (resps.map (fun r => (r.confident_tone).getD 0))),
        fear_score := some (meanQ (resps.map (fun r => (r.fear_tone).getD 0))),
        joy_score := some (meanQ (resps.map (fun r => (r.joy_tone).getD 0))),
        status := Status.completed }, true)

/-- The status effect of SubmitVideoResponseView.post, views.py lines
281-317: the endpoint resolves the interview through a filter on
status = in_progress (404 otherwise, modelled as none) and then sets
status = completed. -/
def SubmitVideoResponseView_post (iv : Interview) : Option Interview :=
  if iv.status = Status.in_progress then
    some { iv with status := Status.completed }
  else none

/-- EvaluateInterviewView.post, views.py lines 424-438: the evaluation
form stores hr_notes and any status chosen by the HR user, and stamps
the evaluator fields. -/
def EvaluateInterviewView_post (iv : Interview) (notes : String) (s : Status)
    (hr now : ℕ) : Interview :=
  { iv with
      hr_notes := notes,
      status := s,
      evaluated_by := some hr,
      evaluated_at := some now }

/-- SendAcceptanceEmailView.post, views.py lines 444-460: only when
the email call reports success are mark_accepted and the
email-tracking fields committed; on failure the row is untouched and
an error result is returned. -/
def SendAcceptanceEmailView_post (iv : Interview) (emailOk : Bool) (hr now : ℕ) :
    Interview × Bool :=
  if emailOk then
    let iv1 := iv.mark_accepted hr now
    ({ iv1 with decision_email_sent := true, decision_email_sent_at := some now }, true)
  else (iv, false)

/-- SendRejectionEmailView.post, views.py lines 466-482. -/
def SendRejectionEmailView_post (iv : Interview) (emailOk : Bool) (hr now : ℕ) :
    Interview × Bool :=
  if emailOk then
    let iv1 := iv.mark_rejected hr now
    ({ iv1 with decision_email_sent := true, decision_email_sent_at := some now }, true)
  else (iv, false)

/-- Position of a status in the forward order
pending, in_progress, completed, evaluated, accepted or rejected. -/
def statusRank : Status → ℕ
  | Status.pending => 0
  | Status.in_progress => 1
  | Status.completed => 2
  | Status.evaluated => 3
  | Status.accepted => 4
  | Status.rejected => 4

/-! ### Observables used by the claims -/

/-- All five per-response tone score columns are non-null. -/
def allScoresPresent (r : VideoResponse) : Bool :=
  r.analytical_tone.isSome && r.confident_tone.isSome && r.tentative_tone.isSome
    && r.joy_tone.isSome && r.fear_tone.isSome

/-- The processing_error column is non-blank. -/
def errorPresent (r : VideoResponse) : Bool :=
  !(r.processing_error == "")

/-! ### Concrete fixtures -/

/-- The empty string as a named constant. -/
def emptyText : String := ""

/-- A sample non-empty transcript. -/
def helloText : String := "hello"

/-- A fresh VideoResponse row as created by the submission endpoint. -/
def freshResponse : VideoResponse :=
  { question_number := 1
    transcribed_text := ""
    analytical_tone := none
    confident_tone := none
    tentative_tone := none
    joy_tone := none
    fear_tone := none
    is_processed := false
    processing_error := "" }

/-- Two unprocessed response rows of one interview. -/
def rowsTwo : List RespRow :=
  [{ rid := 0, is_processed := false }, { rid := 1, is_processed := false }]

/-- An interview row in progress, before submission. -/
def ivInProgress : Interview :=
  { status := Status.in_progress
    tone_analysis_image := none
    confidence_score := none
    analytical_score := none
    joy_score := none
    fear_score := none
    hr_notes := ""
    evaluated_by := none
    evaluated_at := none
    decision_email_sent := false
    decision_email_sent_at := none }

/-- An interview row already evaluated by HR. -/
def ivEvaluated : Interview :=
  { ivInProgress with status := Status.evaluated, evaluated_by := some 9 }

/-- A processed response with analytical tone 10. -/
def respA : VideoResponse :=
  { freshResponse with
    question_number := 1
    analytical_tone := some 10
    confident_tone := some 40
    tentative_tone := some 5
    joy_tone := some 30
    fear_tone := some 20
    is_processed := true }

/-- A processed response with analytical tone 20. -/
def respB : VideoResponse :=
  { respA with question_number := 2, analytical_tone := some 20 }

/-- A processed response with analytical tone 30. -/
def respC : VideoResponse :=
  { respA with question_number := 3, analytical_tone := some 30 }

/-- A configured provider environment returning a raw score of 2,
outside the documented [0, 1] provider range. -/
def envOverOne : WatsonEnv :=
  { configured := true
    exceptionRaised := false
    mockAnalytical := 0
    mockConfident := 0
    mockTentative := 0
    mockJoy := 0
    mockFear := 0
    rawTones := [(nAnalytical, 2)] }

/-- A configured provider environment with one in-range score and the
other four tone names absent. -/
def envPartial : WatsonEnv :=
  { envOverOne with rawTones := [(nAnalytical, 1/2)] }

/-- An environment whose provider call raised an exception. -/
def envFailed : WatsonEnv :=
  { envOverOne with exceptionRaised := true }

/-! ### Shared lemmas on tone dicts -/

theorem dictSet_self (d : ToneDict) (k : String) (v : ℚ) : dictSet d k v k = some v := by
  simp [dictSet]

theorem dictSet_other (d : ToneDict) (k n : String) (v : ℚ) (h : n ≠ k) :
    dictSet d k v n = d n := by
  simp [dictSet, h]

theorem fillMissing_cons (d : ToneDict) (m : String) (rest : List String) :
    fillMissing d (m :: rest) =
      fillMissing (if (d m).isSome then d else dictSet d m 0) rest := rfl

theorem fillMissing_preserves (names : List String) (d : ToneDict) (n : String) (q : ℚ)
    (h : d n = some q) : fillMissing d names n = some q := by
  induction names generalizing d with
  | nil => exact h
  | cons m rest ih =>
    rw [fillMissing_cons]
    by_cases hm : (d m).isSome
    · rw [if_pos hm]; exact ih d h
    · rw [if_neg hm]
      apply ih
      by_cases hnm : n = m
      · subst hnm; rw [h] at hm; simp at hm
      · rw [dictSet_other d m n 0 hnm]; exact h

theorem fillMissing_mem (names : List String) (d : ToneDict) (n : String)
    (h : n ∈ names) : fillMissing d names n = some ((d n).getD 0) := by
  induction names generalizing d with
  | nil => cases h
  | cons m rest ih =>
    rw [fillMissing_cons]
    by_cases hnm : n = m
    · subst hnm
      cases hd : d n with
      | some q =>
        have he : (if (some q : Option ℚ).isSome = true then d else dictSet d n 0) = d := by
          simp
        rw [he]
        simpa using fillMissing_preserves rest d n q hd
      | none =>
        have he : (if (none : Option ℚ).isSome = true then d else dictSet d n 0) =
            dictSet d n 0 := by simp
        rw [he]
        simpa using fillMissing_preserves rest (dictSet d n 0) n 0 (dictSet_self d n 0)
    · have hrest : n ∈ rest := by
        cases List.mem_cons.mp h with
        | inl h1 => exact absurd h1 hnm
        | inr h2 => exact h2
      by_cases hm : (d m).isSome
      · rw [if_pos hm]; exact ih d hrest
      · rw [if_neg hm]
        rw [ih (dictSet d m 0) hrest, dictSet_other d m n 0 hnm]

theorem buildTonesFrom_cons (d : ToneDict) (p : String × ℚ) (rest : List (String × ℚ)) :
    buildTonesFrom d (p :: rest) =
      buildTonesFrom (dictSet d p.1 (roundTo2 (p.2 * 100))) rest := rfl

theorem buildTonesFrom_values (raw : List (String × ℚ)) (d : ToneDict) (n : String) (q : ℚ)
    (h : buildTonesFrom d raw n = some q) :
    d n = some q ∨ ∃ s : ℚ, (n, s) ∈ raw ∧ q = roundTo2 (s * 100) := by
  induction raw generalizing d with
  | nil => exact Or.inl h
  | cons p rest ih =>
    rw [buildTonesFrom_cons] at h
    cases ih (dictSet d p.1 (roundTo2 (p.2 * 100))) h with
    | inl h1 =>
      by_cases hnp : n = p.1
      · subst hnp
        rw [dictSet_self] at h1
        refine Or.inr ⟨p.2, List.mem_cons_self p rest, ?_⟩
        exact (Option.some_injective _ h1).symm
      · rw [dictSet_other d p.1 n _ hnp] at h1
        exact Or.inl h1
    | inr h2 =>
      rcases h2 with ⟨s, hs, hq⟩
      exact Or.inr ⟨s, List.mem_cons_of_mem p hs, hq⟩

theorem buildTonesFrom_absent (raw : List (String × ℚ)) (d : ToneDict) (n : String)
    (hd : d n = none) (h : ∀ p ∈ raw, p.1 ≠ n) : buildTonesFrom d raw n = none := by
  induction raw generalizing d with
  | nil => exact hd
  | cons p rest ih =>
    rw [buildTonesFrom_cons]
    apply ih
    · rw [dictSet_other d p.1 n _ (fun he => h p (List.mem_cons_self p rest) he.symm)]
      exact hd
    · intro p2 hp2
      exact h p2 (List.mem_cons_of_mem p hp2)

theorem roundTo2_bounds (x : ℚ) (h0 : 0 ≤ x) (h1 : x ≤ 100) :
    0 ≤ roundTo2 x ∧ roundTo2 x ≤ 100 := by
  have habs : |x * 100 - ((round (x * 100) : ℤ) : ℚ)| ≤ 1 / 2 := abs_sub_round (x * 100)
  rcases abs_le.mp habs with ⟨hlo, hhi⟩
  have hx0 : (0 : ℚ) ≤ x * 100 := by linarith
  have hx1 : x * 100 ≤ 10000 := by linarith
  have hk0 : (0 : ℤ) ≤ round (x * 100) := by
    by_contra hneg
    push_neg at hneg
    have : (round (x * 100) : ℤ) ≤ -1 := by omega
    have hc : ((round (x * 100) : ℤ) : ℚ) ≤ -1 := by exact_mod_cast this
    linarith
  have hk1 : (round (x * 100) : ℤ) ≤ 10000 := by
    by_contra hbig
    push_neg at hbig
    have : (10001 : ℤ) ≤ round (x * 100) := by omega
    have hc : (10001 : ℚ) ≤ ((round (x * 100) : ℤ) : ℚ) := by exact_mod_cast this
    linarith
  have hq0 : (0 : ℚ) ≤ ((round (x * 100) : ℤ) : ℚ) := by exact_mod_cast hk0
  have hq1 : ((round (x * 100) : ℤ) : ℚ) ≤ 10000 := by exact_mod_cast hk1
  unfold roundTo2
  constructor <;> [positivity; linarith]

/-! ### Shared lemmas on the completion detector -/

theorem runSignals_cons_eq (s : TaskState) (r : ℕ) (rest : List ℕ) :
    runSignals s (r :: rest) = runSignals (worker_save_and_check s r) rest := rfl

theorem step_increments_only_when_all_processed (s : TaskState) (r : ℕ)
    (h : (worker_save_and_check s r).aggRuns ≠ s.aggRuns) :
    allProcessed (worker_save_and_check s r).rows = true := by
  by_cases hall : allProcessed (markProcessed s.rows r) = true
  · simpa [worker_save_and_check] using hall
  · exfalso
    apply h
    simp [worker_save_and_check, hall]

theorem markProcessed_flags (rows : List RespRow) (r : ℕ) (rest : List ℕ)
    (hr_rest : r ∉ rest)
    (hflag : ∀ row ∈ rows, (row.is_processed = false ↔ row.rid ∈ r :: rest)) :
    ∀ row ∈ markProcessed rows r, (row.is_processed = false ↔ row.rid ∈ rest) := by
  intro row hrow
  rcases List.mem_map.mp hrow with ⟨row0, hrow0, hmap⟩
  by_cases hrid : row0.rid = r
  · rw [if_pos hrid] at hmap
    subst hmap
    constructor
    · intro hfalse; simp at hfalse
    · intro hmem
      have hmem2 : row0.rid ∈ rest := hmem
      rw [hrid] at hmem2
      exact absurd hmem2 hr_rest
  · rw [if_neg hrid] at hmap
    subst hmap
    rw [hflag row0 hrow0]
    simp [List.mem_cons, hrid]

theorem markProcessed_exists (rows : List RespRow) (r : ℕ) (sched : List ℕ)
    (hex : ∀ x ∈ sched, ∃ row ∈ rows, row.rid = x) :
    ∀ x ∈ sched, ∃ row ∈ markProcessed rows r, row.rid = x := by
  intro x hx
  rcases hex x hx with ⟨row0, hrow0, hrid0⟩
  refine ⟨if row0.rid = r then { row0 with is_processed := true } else row0,
    List.mem_map.mpr ⟨row0, hrow0, rfl⟩, ?_⟩
  by_cases h : row0.rid = r
  · rw [if_pos h]; simpa using hrid0
  · rw [if_neg h]; exact hrid0

theorem runSignals_unique_aux (sched : List ℕ) (rows : List RespRow) (c : ℕ)
    (hne : sched ≠ [])
    (hnd : sched.Nodup)
    (hex : ∀ r ∈ sched, ∃ row ∈ rows, row.rid = r)
    (hflag : ∀ row ∈ rows, (row.is_processed = false ↔ row.rid ∈ sched)) :
    (runSignals ⟨rows, c⟩ sched).aggRuns = c + 1 ∧
      allProcessed (runSignals ⟨rows, c⟩ sched).rows = true := by
  induction sched generalizing rows c with
  | nil => exact absurd rfl hne
  | cons r rest ih =>
    have hr_rest : r ∉ rest := (List.nodup_cons.mp hnd).1
    have hnd_rest : rest.Nodup := (List.nodup_cons.mp hnd).2
    have hflag1 := markProcessed_flags rows r rest hr_rest hflag
    have hex1 := markProcessed_exists rows r rest
      (fun x hx => hex x (List.mem_cons_of_mem r hx))
    cases rest with
    | nil =>
      have hall : allProcessed (markProcessed rows r) = true := by
        rw [allProcessed, List.all_eq_true]
        intro row hrow
        have h1 := hflag1 row hrow
        simp at h1
        exact h1
      constructor
      · show (worker_save_and_check ⟨rows, c⟩ r).aggRuns = c + 1
        simp [worker_save_and_check, hall]
      · show allProcessed (worker_save_and_check ⟨rows, c⟩ r).rows = true
        simpa [worker_save_and_check] using hall
    | cons x xs =>
      have hnall : allProcessed (markProcessed rows r) = false := by
        rcases hex1 x (List.mem_cons_self x xs) with ⟨row, hrow, hridx⟩
        have hfalse : row.is_processed = false :=
          (hflag1 row hrow).mpr (by rw [hridx]; exact List.mem_cons_self x xs)
        cases hb : allProcessed (markProcessed rows r) with
        | false => rfl
        | true =>
          have hb2 : ∀ row2 ∈ markProcessed rows r, row2.is_processed = true := by
            simpa [allProcessed, List.all_eq_true] using hb
          exact absurd (hb2 row hrow) (by simp [hfalse])
      have hstep : worker_save_and_check ⟨rows, c⟩ r = ⟨markProcessed rows r, c⟩ := by
        simp [worker_save_and_check, hnall]
      rw [runSignals_cons_eq, hstep]
      exact ih (markProcessed rows r) c (by simp) hnd_rest hex1 hflag1

/-! ### Claims -/

/-- C1 (amended): when each of the N responses of the interview delivers its
completion signal atomically and exactly once (in any order), the
completion check of process_video_response enqueues
generate_analysis_charts exactly once, the final table has every
response processed, and a signal enqueues aggregation only when all
responses of the interview are processed.  (The original claim, which
also allowed duplicate signals, is refuted by
c1_duplicate_signal_double_aggregation.) -/
theorem c1_aggregation_once_when_signals_unique (sched : List ℕ) (rows : List RespRow)
    (c : ℕ)
    (hne : sched ≠ [])
    (hnd : sched.Nodup)
    (hex : ∀ r ∈ sched, ∃ row ∈ rows, row.rid = r)
    (hflag : ∀ row ∈ rows, (row.is_processed = false ↔ row.rid ∈ sched)) :
    (runSignals ⟨rows, c⟩ sched).aggRuns = c + 1 ∧
      allProcessed (runSignals ⟨rows, c⟩ sched).rows = true ∧
      ∀ s : TaskState, ∀ r : ℕ, (worker_save_and_check s r).aggRuns ≠ s.aggRuns →
        allProcessed (worker_save_and_check s r).rows = true := by
  rcases runSignals_unique_aux sched rows c hne hnd hex hflag with ⟨h1, h2⟩
  exact ⟨h1, h2, step_increments_only_when_all_processed⟩

/-- Witness for C1: the two responses of rowsTwo signalled once each,
in order 0 then 1, produce exactly one aggregation run. -/
theorem c1_aggregation_once_witness :
    (runSignals ⟨rowsTwo, 0⟩ [0, 1]).aggRuns = 0 + 1 :=
  (c1_aggregation_once_when_signals_unique [0, 1] rowsTwo 0 (by decide) (by decide)
    (by decide) (by decide)).1

/-- Counterexample to C1 as stated: a duplicate completion signal for
response 0 of rowsTwo (as produced by a retried worker) enqueues
generate_analysis_charts a second time, so the count of aggregation
runs is 2, not at most 1. -/
theorem c1_duplicate_signal_double_aggregation :
    (runSignals ⟨rowsTwo, 0⟩ [0, 1, 0]).aggRuns = 2 := by decide

/-- C4: the HR decision endpoints follow send-then-transition ordering.
When the email call fails, SendAcceptanceEmailView.post and
SendRejectionEmailView.post leave the interview row completely
unchanged and return a failure result; when it succeeds, the status,
the evaluator fields and the notification-sent flag are committed and
a success result is returned. -/
theorem c4_send_then_transition (iv : Interview) (hr now : ℕ) :
    SendAcceptanceEmailView_post iv false hr now = (iv, false) ∧
    SendRejectionEmailView_post iv false hr now = (iv, false) ∧
    ((SendAcceptanceEmailView_post iv true hr now).1.status = Status.accepted ∧
      (SendAcceptanceEmailView_post iv true hr now).1.evaluated_by = some hr ∧
      (SendAcceptanceEmailView_post iv true hr now).1.evaluated_at = some now ∧
      (SendAcceptanceEmailView_post iv true hr now).1.decision_email_sent = true ∧
      (SendAcceptanceEmailView_post iv true hr now).2 = true) ∧
    ((SendRejectionEmailView_post iv true hr now).1.status = Status.rejected ∧
      (SendRejectionEmailView_post iv true hr now).1.evaluated_by = some hr ∧
      (SendRejectionEmailView_post iv true hr now).1.evaluated_at = some now ∧
      (SendRejectionEmailView_post iv true hr now).1.decision_email_sent = true ∧
      (SendRejectionEmailView_post iv true hr now).2 = true) := by
  refine ⟨rfl, rfl, ⟨rfl, rfl, rfl, rfl, rfl⟩, ⟨rfl, rfl, rfl, rfl, rfl⟩⟩

/-- C7: when every attempt of the per-response worker fails, the
failure is caught each time, the error text is stored, exactly three
retries are scheduled with a fixed 60-second backoff, and the exhausted
task leaves the response with its is_processed flag untouched (still
false for an unprocessed row), the last error message recorded, and a
failure outcome returned rather than an escaping exception. -/
theorem c7_retry_exhaustion_stuck (r : VideoResponse) (m1 m2 m3 m4 : String)
    (rest : List AttemptOutcome) :
    (process_video_response_task r (AttemptOutcome.err m1 :: AttemptOutcome.err m2 ::
        AttemptOutcome.err m3 :: AttemptOutcome.err m4 :: rest)).1.is_processed
       = r.is_processed ∧
    (process_video_response_task r (AttemptOutcome.err m1 :: AttemptOutcome.err m2 ::
        AttemptOutcome.err m3 :: AttemptOutcome.err m4 :: rest)).1.processing_error = m4 ∧
    (process_video_response_task r (AttemptOutcome.err m1 :: AttemptOutcome.err m2 ::
        AttemptOutcome.err m3 :: AttemptOutcome.err m4 :: rest)).2.1 = false ∧
    (process_video_response_task r (AttemptOutcome.err m1 :: AttemptOutcome.err m2 ::
        AttemptOutcome.err m3 :: AttemptOutcome.err m4 :: rest)).2.2 = [60, 60, 60] := by
  refine ⟨rfl, rfl, rfl, rfl⟩

/-- C9: generate_analysis_charts is an idempotent, deterministic state
transformer: re-running it on its own output for the unchanged
response set stores exactly the same interview row (in particular the
same four aggregate scores). -/
theorem c9_aggregation_idempotent (iv : Interview) (resps : List VideoResponse)
    (iid : ℕ) :
    (generate_analysis_charts (generate_analysis_charts iv resps iid).1 resps iid).1
      = (generate_analysis_charts iv resps iid).1 := by
  by_cases h : resps.isEmpty <;> simp [generate_analysis_charts, h]

/-- C2 (amended): status completed is not written exclusively by the
aggregation engine.  It is written by generate_analysis_charts (for a
non-empty response set), but also unconditionally by the candidate
video-submission endpoint at submission time, and it can be chosen by
the HR user through the evaluation form; the decision operations
mark_accepted and mark_rejected never write it. -/
theorem c2_completed_writers (iv iv2 : Interview) (iv1 : Interview)
    (resps : List VideoResponse) (iid hr now : ℕ) (notes : String)
    (hsub : SubmitVideoResponseView_post iv = some iv1)
    (hresps : resps ≠ []) :
    iv1.status = Status.completed ∧
    (generate_analysis_charts iv2 resps iid).1.status = Status.completed ∧
    (EvaluateInterviewView_post iv2 notes Status.completed hr now).status
      = Status.completed ∧
    (iv2.mark_accepted hr now).status ≠ Status.completed ∧
    (iv2.mark_rejected hr now).status ≠ Status.completed := by
  refine ⟨?_, ?_, rfl, by simp [Interview.mark_accepted], by simp [Interview.mark_rejected]⟩
  · unfold SubmitVideoResponseView_post at hsub
    by_cases hs : iv.status = Status.in_progress
    · rw [if_pos hs] at hsub
      cases hsub
      rfl
    · rw [if_neg hs] at hsub
      cases hsub
  · have h : resps.isEmpty = false := by
      cases resps with
      | nil => exact absurd rfl hresps
      | cons a as => rfl
    simp [generate_analysis_charts, h]

/-- Witness for C2 (amended) at the in-progress fixture interview. -/
theorem c2_completed_writers_witness :
    ({ ivInProgress with status := Status.completed } : Interview).status
      = Status.completed :=
  (c2_completed_writers ivInProgress ivInProgress
    { ivInProgress with status := Status.completed } [respA] 1 2 3 ivInProgress.hr_notes
    (by decide) (by decide)).1

/-- Counterexample to C2 as stated: the candidate video-submission
endpoint, applied to an interview that is merely in progress, itself
writes status completed, so the aggregation task is not the only
writer of that status. -/
theorem c2_submission_writes_completed :
    ivInProgress.status = Status.in_progress ∧
    (SubmitVideoResponseView_post ivInProgress).map Interview.status
      = some Status.completed := by decide

/-- C3 (amended): after the success path of the worker, processed = true
always holds and all five tone scores are present whenever the
transcribed text is non-empty; but the success path never writes the
error column (a previously recorded error text survives), and with an
empty transcript it leaves the tone scores untouched, so
{all five scores present} and {error text present} are neither
exhaustive nor mutually exclusive terminal states.  (The original
claim is refuted by c3_neither_scores_nor_error.) -/
theorem c3_processed_terminal_states (r : VideoResponse) (t : String) (d : ToneDict) :
    (process_video_response_success r t d).is_processed = true ∧
    (t ≠ "" → allScoresPresent (process_video_response_success r t d) = true) ∧
    (process_video_response_success r t d).processing_error = r.processing_error ∧
    (t = "" → (process_video_response_success r t d).analytical_tone
      = r.analytical_tone) := by
  by_cases ht : t = ""
  · subst ht
    refine ⟨rfl, fun h => absurd rfl h, rfl, fun _ => rfl⟩
  · refine ⟨rfl, fun _ => ?_, ?_, fun he => absurd he ht⟩
    · simp [process_video_response_success, if_pos ht, allScoresPresent]
    · simp [process_video_response_success, if_pos ht]

/-- Witness for C3 (amended): processing the fresh response with a
non-empty transcript yields all five scores present. -/
theorem c3_processed_terminal_states_witness :
    allScoresPresent (process_video_response_success freshResponse helloText emptyDict)
      = true :=
  (c3_processed_terminal_states freshResponse helloText emptyDict).2.1 (by decide)

/-- Counterexample to C3 as stated: a fresh response whose
transcription failed (empty transcript) ends with processed = true but
with neither all five scores present nor an error text present. -/
theorem c3_neither_scores_nor_error :
    (process_video_response_success freshResponse emptyText emptyDict).is_processed
      = true ∧
    allScoresPresent (process_video_response_success freshResponse emptyText emptyDict)
      = false ∧
    errorPresent (process_video_response_success freshResponse emptyText emptyDict)
      = false := by decide

theorem meanQ_map_perm {α : Type} {l l2 : List α} (hp : l.Perm l2) (f : α → ℚ) :
    meanQ (l.map f) = meanQ (l2.map f) := by
  unfold meanQ
  rw [(hp.map f).sum_eq, (hp.map f).length_eq]

/-- C5: for an interview with at least one response,
generate_analysis_charts stores for each of the four aggregate
dimensions exactly the arithmetic mean (sum divided by count) of the
per-response scores over all responses (a null per-response score
contributing 0), and the stored scores do not depend on the order of
the responses. -/
theorem c5_aggregate_mean_exact (iv : Interview) (l l2 : List VideoResponse) (iid : ℕ)
    (hne : l ≠ []) (hp : l.Perm l2) :
    (generate_analysis_charts iv l iid).1.analytical_score
      = some ((l.map (fun r => (r.analytical_tone).getD 0)).sum / (l.length : ℚ)) ∧
    (generate_analysis_charts iv l iid).1.confidence_score
      = some ((l.map (fun r => (r.confident_tone).getD 0)).sum / (l.length : ℚ)) ∧
    (generate_analysis_charts iv l iid).1.joy_score
      = some ((l.map (fun r => (r.joy_tone).getD 0)).sum / (l.length : ℚ)) ∧
    (generate_analysis_charts iv l iid).1.fear_score
      = some ((l.map (fun r => (r.fear_tone).getD 0)).sum / (l.length : ℚ)) ∧
    (generate_analysis_charts iv l iid).1.analytical_score
      = (generate_analysis_charts iv l2 iid).1.analytical_score ∧
    (generate_analysis_charts iv l iid).1.confidence_score
      = (generate_analysis_charts iv l2 iid).1.confidence_score ∧
    (generate_analysis_charts iv l iid).1.joy_score
      = (generate_analysis_charts iv l2 iid).1.joy_score ∧
    (generate_analysis_charts iv l iid).1.fear_score
      = (generate_analysis_charts iv l2 iid).1.fear_score := by
  have hl : l.isEmpty = false := by
    cases l with
    | nil => exact absurd rfl hne
    | cons a as => rfl
  have hne2 : l2 ≠ [] := fun h => hne (List.Perm.eq_nil (h ▸ hp))
  have hl2 : l2.isEmpty = false := by
    cases l2 with
    | nil => exact absurd rfl hne2
    | cons a as => rfl
  refine ⟨?_, ?_, ?_, ?_, ?_, ?_, ?_, ?_⟩
  · simp [generate_analysis_charts, hl, meanQ]
  · simp [generate_analysis_charts, hl, meanQ]
  · simp [generate_analysis_charts, hl, meanQ]
  · simp [generate_analysis_charts, hl, meanQ]
  · simp only [generate_analysis_charts, hl, hl2, Bool.false_eq_true, if_false]
    exact congrArg some (meanQ_map_perm hp _)
  · simp only [generate_analysis_charts, hl, hl2, Bool.false_eq_true, if_false]
    exact congrArg some (meanQ_map_perm hp _)
  · simp only [generate_analysis_charts, hl, hl2, Bool.false_eq_true, if_false]
    exact congrArg some (meanQ_map_perm hp _)
  · simp only [generate_analysis_charts, hl, hl2, Bool.false_eq_true, if_false]
    exact congrArg some (meanQ_map_perm hp _)

/-- Witness for C5: responses with analytical tones 10, 20, 30 yield a
stored analytical score of exactly 20. -/
theorem c5_aggregate_mean_exact_witness :
    (generate_analysis_charts ivInProgress [respA, respB, respC] 7).1.analytical_score
      = some 20 := by
  have h := c5_aggregate_mean_exact ivInProgress [respA, respB, respC]
    [respA, respB, respC] 7 (by decide) (List.Perm.refl _)
  rw [h.1]
  norm_num [respA, respB, respC, freshResponse]

/-- C6 (amended): the submission endpoint, the two decision-email
endpoints and the model helpers mark_accepted and mark_rejected never
move the status of an interview backward in the order pending, in_progress,
completed, evaluated, accepted/rejected; but the aggregation task
writes status completed regardless of the current status, moving an
already-evaluated interview backward
(c6_aggregation_moves_status_backward), and the evaluation endpoint
stores whatever status the HR form supplies. -/
theorem c6_monotone_except_aggregation (iv : Interview) (emailOk : Bool) (hr now : ℕ) :
    statusRank iv.status ≤ statusRank ((SubmitVideoResponseView_post iv).getD iv).status ∧
    statusRank iv.status
      ≤ statusRank ((SendAcceptanceEmailView_post iv emailOk hr now).1).status ∧
    statusRank iv.status
      ≤ statusRank ((SendRejectionEmailView_post iv emailOk hr now).1).status ∧
    statusRank iv.status ≤ statusRank (iv.mark_accepted hr now).status ∧
    statusRank iv.status ≤ statusRank (iv.mark_rejected hr now).status := by
  have hle : ∀ s : Status, statusRank s ≤ 4 := by
    intro s
    cases s <;> simp [statusRank]
  refine ⟨?_, ?_, ?_, ?_, ?_⟩
  · by_cases hs : iv.status = Status.in_progress
    · simp [SubmitVideoResponseView_post, hs, statusRank]
    · simp [SubmitVideoResponseView_post, hs]
  · cases emailOk with
    | false => exact le_refl _
    | true =>
      simpa [SendAcceptanceEmailView_post, Interview.mark_accepted, statusRank]
        using hle iv.status
  · cases emailOk with
    | false => exact le_refl _
    | true =>
      simpa [SendRejectionEmailView_post, Interview.mark_rejected, statusRank]
        using hle iv.status
  · simpa [Interview.mark_accepted, statusRank] using hle iv.status
  · simpa [Interview.mark_rejected, statusRank] using hle iv.status

/-- Counterexample to C6 as stated: running the aggregation task on an
interview that HR has already marked evaluated moves its status
backward from evaluated to completed. -/
theorem c6_aggregation_moves_status_backward :
    statusRank ((generate_analysis_charts ivEvaluated [respA] 1).1).status
      < statusRank ivEvaluated.status := by decide

/-- C10: analyze_tone is total at its boundary: whatever the
environment and input text, its result maps every one of the five
tone names to a value, and whenever the provider call raised an
exception the result maps every tone name to 0 instead of propagating
the exception. -/
theorem c10_analyze_tone_total (env : WatsonEnv) (text : String) (n : String)
    (h : n ∈ toneNames) :
    (analyze_tone env text n).isSome = true ∧
    (env.exceptionRaised = true → analyze_tone env text n = some 0) := by
  by_cases he : env.exceptionRaised = true
  · constructor
    · simp [analyze_tone, he, zeroTones, h]
    · intro _
      simp [analyze_tone, he, zeroTones, h]
  · refine ⟨?_, fun hexc => absurd hexc he⟩
    by_cases hc : env.configured = true
    · have hfill := fillMissing_mem toneNames (buildTones env.rawTones) n h
      simp [analyze_tone, he, hc, hfill]
    · have hmock : analyze_tone env text n = mockToneDict env n := by
        simp [analyze_tone, he, hc]
      rw [hmock]
      simp only [toneNames, List.mem_cons, List.not_mem_nil, or_false] at h
      rcases h with h | h | h | h | h <;> subst h <;> rfl

/-- Witness for C10: a failed provider call yields a zero Joy score. -/
theorem c10_analyze_tone_total_witness :
    analyze_tone envFailed helloText nJoy = some 0 :=
  (c10_analyze_tone_total envFailed helloText nJoy (by decide)).2 rfl

/-- C8 (amended): with the provider configured and not failing, each of
the five tone names receives a score equal to the provider score
scaled by 100 and rounded to two decimals, hence lying in [0, 100]
whenever the provider score lies in [0, 1] (the code applies no
clamping, see c8_no_clamping); any tone name absent from the provider
response defaults to 0; and for a non-empty transcript the worker
persists exactly these five looked-up scores. -/
theorem c8_tone_scores_scaled_and_defaulted (env : WatsonEnv) (text : String)
    (n : String) (resp : VideoResponse) (t : String)
    (hc : env.configured = true) (he : env.exceptionRaised = false)
    (hb : ∀ p ∈ env.rawTones, 0 ≤ p.2 ∧ p.2 ≤ 1) :
    (n ∈ toneNames → ∃ q : ℚ, analyze_tone env text n = some q ∧ 0 ≤ q ∧ q ≤ 100) ∧
    (n ∈ toneNames → (∀ p ∈ env.rawTones, p.1 ≠ n) →
      analyze_tone env text n = some 0) ∧
    (t ≠ "" →
      (process_video_response_success resp t (analyze_tone env text)).analytical_tone
          = some ((analyze_tone env text nAnalytical).getD 0) ∧
      (process_video_response_success resp t (analyze_tone env text)).confident_tone
          = some ((analyze_tone env text nConfident).getD 0) ∧
      (process_video_response_success resp t (analyze_tone env text)).tentative_tone
          = some ((analyze_tone env text nTentative).getD 0) ∧
      (process_video_response_success resp t (analyze_tone env text)).joy_tone
          = some ((analyze_tone env text nJoy).getD 0) ∧
      (process_video_response_success resp t (analyze_tone env text)).fear_tone
          = some ((analyze_tone env text nFear).getD 0)) := by
  have hat : analyze_tone env text = fillMissing (buildTones env.rawTones) toneNames := by
    simp [analyze_tone, he, hc]
  refine ⟨?_, ?_, ?_⟩
  · intro hn
    rw [hat, fillMissing_mem toneNames _ n hn]
    refine ⟨(buildTones env.rawTones n).getD 0, rfl, ?_⟩
    cases hbt : buildTones env.rawTones n with
    | none => norm_num
    | some q =>
      rcases buildTonesFrom_values env.rawTones emptyDict n q hbt with h1 | h2
      · exact absurd h1 (by simp [emptyDict])
      · rcases h2 with ⟨s, hs, hq⟩
        rcases hb (n, s) hs with ⟨hs0, hs1⟩
        have hbnd := roundTo2_bounds (s * 100) (by linarith) (by linarith)
        rw [hq]
        simpa using hbnd
  · intro hn habsent
    rw [hat, fillMissing_mem toneNames _ n hn]
    have hnone : buildTones env.rawTones n = none :=
      buildTonesFrom_absent env.rawTones emptyDict n rfl habsent
    rw [hnone]
    rfl
  · intro ht
    refine ⟨?_, ?_, ?_, ?_, ?_⟩ <;> simp [process_video_response_success, ht]

/-- Witness for C8 (amended): a provider response carrying only an
in-range Analytical score leaves the absent Confident name at 0. -/
theorem c8_tone_scores_scaled_and_defaulted_witness :
    analyze_tone envPartial helloText nConfident = some 0 :=
  (c8_tone_scores_scaled_and_defaulted envPartial helloText nConfident freshResponse
    helloText rfl rfl
    (by
      intro p hp
      simp only [envPartial, envOverOne, List.mem_singleton] at hp
      rw [hp]
      norm_num)).2.1 (by decide) (by decide)

/-- Counterexample to C8 as stated: the code does not clamp scores to
[0, 100]; a provider raw score of 2 is stored as 200, which a clamp to
[0, 100] would have capped. -/
theorem c8_no_clamping :
    analyze_tone envOverOne helloText nAnalytical = some 200 ∧ ¬ ((200 : ℚ) ≤ 100) := by
  have hr : (round ((2 : ℚ) * 100 * 100) : ℤ) = 20000 := by
    have h1 : ((2 : ℚ) * 100 * 100) = ((20000 : ℤ) : ℚ) := by norm_num
    rw [h1, round_intCast]
  have h200 : roundTo2 ((2 : ℚ) * 100) = 200 := by
    unfold roundTo2
    rw [hr]
    norm_num
  constructor
  · have hat : analyze_tone envOverOne helloText
        = fillMissing (buildTones envOverOne.rawTones) toneNames := by
      simp [analyze_tone, envOverOne]
    rw [hat]
    have hbuild : buildTones envOverOne.rawTones nAnalytical
        = some (roundTo2 ((2 : ℚ) * 100)) := by
      show buildTonesFrom emptyDict [(nAnalytical, (2 : ℚ))] nAnalytical = _
      rw [buildTonesFrom_cons]
      exact dictSet_self emptyDict nAnalytical _
    rw [fillMissing_preserves toneNames _ nAnalytical _ hbuild, h200]
  · norm_num
